import Mathlib

/-!
Verification of the sailstats-logger NMEA2000 core: frame parsing,
fast-packet reassembly and state aggregation.

The development shallowly embeds the Rust sources:

* `src/nmea/nmea2000/yd.rs` — the Yacht Devices raw-frame type, the line
  parser (`From<String> for Raw`) and the reassembly step `Raw::write`
  used by the live pipeline (`main.rs`);
* `src/nmea/nmea2000/mod.rs` — `Parser::parse_from_raw`, the pending
  table driver;
* `src/parser.rs` — the legacy `Parser::from_raw` (an earlier iteration
  of the same engine kept in the repository);
* `src/state.rs` / `src/message.rs` — the navigation state merge and the
  per-PGN value decoders.

Modelling conventions: machine integers are `Nat` (or `Int` for signed
reads) with explicit `% 2 ^ w` where the width matters; `u8` counter
arithmetic is modelled with wrap-around `% 256` (Rust release-profile
semantics — the debug profile would panic at the same point instead of
wrapping, which is noted where it matters).  `f32` timestamps and scaled
sensor values are modelled as exact rationals `ℚ`; the only place where
the claims depend on floating-point behaviour is the rudder plausibility
threshold `PI as f32`, which is embedded as the exact rational value of
the `f32` nearest to π.  Fallible code returns `Except`/`Option`.
-/

/-- Timestamp `(hour, minute, seconds)`: Rust `(u8, u8, f32)`; the `f32`
seconds value is modelled as an exact rational. -/
abbrev Timestamp := ℕ × ℕ × ℚ

/-- Direction of a frame (yd.rs `YDRawDirection`). -/
inductive Direction where
  | Received
  | Transmitted
deriving DecidableEq

/-- A Yacht Devices raw frame (yd.rs `struct Raw`): the parsed fields and
the values derived from the 29-bit identifier.  `data` holds the eight
data bytes (the array `[u8; 8]`). -/
structure Raw where
  timestamp : Timestamp
  direction : Direction
  msgid : ℕ
  data : List ℕ
  prio : ℕ
  pgn : ℕ
  src : ℕ
  dest : ℕ
deriving DecidableEq

/-- Reassembly errors (mod.rs `MessageErr` / `NMEA2000Error`): the two
sequencing failures `Raw::write` can return. -/
inductive MessageErr where
  | OutOfSequence
  | UnexpectedLength
deriving DecidableEq

/-- Decidable equality for `Except` results (used to evaluate the
engine at concrete inputs). -/
instance {e a : Type} [DecidableEq e] [DecidableEq a] : DecidableEq (Except e a) := fun x y =>
  match x, y with
  | .ok v, .ok w => decidable_of_iff (v = w) (by simp)
  | .error v, .error w => decidable_of_iff (v = w) (by simp)
  | .ok _, .error _ => isFalse (by simp)
  | .error _, .ok _ => isFalse (by simp)

/-- One pending (or completed) message: the fields that every
`message_type!`-generated struct carries, together with the per-type
constants `PGN`, `BYTES` and `FAST` (in Rust these are associated
constants of each message type; here they are fields fixed at creation
from the catalogue). -/
structure Message where
  timestamp : Timestamp
  prio : ℕ
  src : ℕ
  dest : ℕ
  pgn : ℕ
  bytes : ℕ
  fast : Bool
  data : List ℕ
  counterMask : ℕ
  nextPacket : ℕ
  remainingBytes : ℕ
deriving DecidableEq

/-- A freshly constructed message (`$type_name::new()` with
`Default::default()`: zero timestamp, empty data, zero counters). -/
def mkMsg (pgn bytes : ℕ) (fast : Bool) : Message :=
  { timestamp := (0, 0, 0), prio := 0, src := 0, dest := 0,
    pgn := pgn, bytes := bytes, fast := fast,
    data := [], counterMask := 0, nextPacket := 0, remainingBytes := 0 }

/-- Rust slice `xs[a..b]` of a list (the uses below always have
`a ≤ b ≤ xs.length`, where Rust would not panic). -/
def sliceL (xs : List ℕ) (a b : ℕ) : List ℕ :=
  (xs.take b).drop a

/-- Byte 0 of a frame's data (`self.data[0]`). -/
def d0 (raw : Raw) : ℕ := raw.data.getD 0 0

/-- Byte 1 of a frame's data (`self.data[1]`). -/
def d1 (raw : Raw) : ℕ := raw.data.getD 1 0

/-- The start-of-sequence arm of `Raw::write` (yd.rs lines 68–76): copy
the frame's header fields, record the counter mask, bump the packet
counter (u8, hence `% 256`), set `remaining_bytes = bytes - 6` and append
`data[2..8]`. -/
def startResult (raw : Raw) (m : Message) : Message :=
  { m with
    timestamp := raw.timestamp, src := raw.src, dest := raw.dest,
    prio := raw.prio, counterMask := d0 raw,
    nextPacket := (m.nextPacket + 1) % 256,
    remainingBytes := m.bytes - 6,
    data := m.data ++ sliceL raw.data 2 8 }

/-- The continuation arm of `Raw::write` (yd.rs lines 80–84): append
`data[1..min(remaining_bytes+1, 8)]`, subtract `min(remaining_bytes, 7)`
from the remaining count and bump the packet counter. -/
def contResult (raw : Raw) (m : Message) : Message :=
  { m with
    data := m.data ++ sliceL raw.data 1 (min (m.remainingBytes + 1) 8),
    remainingBytes := m.remainingBytes - min m.remainingBytes 7,
    nextPacket := (m.nextPacket + 1) % 256 }

/-- The restart arm of `Raw::write` (yd.rs lines 89–98): like a start,
but the accumulated data is cleared first and `remaining_bytes` is set to
`bytes - min(bytes, 6)`.  Note the source increments `next_packet` by one
instead of resetting it to 1 (the legacy `parser.rs` resets it; see
`fromRawLegacy`). -/
def restartResult (raw : Raw) (m : Message) : Message :=
  { m with
    timestamp := raw.timestamp, src := raw.src, dest := raw.dest,
    prio := raw.prio, counterMask := d0 raw,
    nextPacket := (m.nextPacket + 1) % 256,
    remainingBytes := m.bytes - min m.bytes 6,
    data := sliceL raw.data 2 8 }

/-- The non-fast arm of `Raw::write` (yd.rs lines 104–111): copy the
header fields and append all eight data bytes.  `remaining_bytes` is not
touched (it stays at its default 0 for a fresh message). -/
def plainResult (raw : Raw) (m : Message) : Message :=
  { m with
    timestamp := raw.timestamp, src := raw.src, dest := raw.dest,
    prio := raw.prio,
    data := m.data ++ raw.data }

/-- `Raw::write` from yd.rs (the reassembly step used by `main.rs`),
returning the updated message or a sequencing error. -/
def write (raw : Raw) (m : Message) : Except MessageErr Message :=
  if m.fast then
    if m.nextPacket = 0 ∧ d0 raw &&& 0x1F = 0 then
      if m.bytes ≠ d1 raw then .error .UnexpectedLength
      else .ok (startResult raw m)
    else
      if m.nextPacket = m.counterMask ^^^ d0 raw then .ok (contResult raw m)
      else
        if d0 raw &&& 0x1F = 0 ∧ d1 raw = m.bytes then .ok (restartResult raw m)
        else .error .OutOfSequence
  else .ok (plainResult raw m)

/-- The restart arm of the legacy `Parser::from_raw` (parser.rs lines
100–109): identical to yd.rs except that `next_packet` is reset to
`0x01` and `remaining_bytes` is set with plain `bytes - 6`. -/
def restartResultLegacy (raw : Raw) (m : Message) : Message :=
  { m with
    timestamp := raw.timestamp, src := raw.src, dest := raw.dest,
    prio := raw.prio, counterMask := d0 raw,
    nextPacket := 1,
    remainingBytes := m.bytes - 6,
    data := sliceL raw.data 2 8 }

/-- The non-fast arm of the legacy `Parser::from_raw` (parser.rs lines
115–124): append only `raw.data[0..bytes]` and recompute
`remaining_bytes = bytes - data.len()`. -/
def plainResultLegacy (raw : Raw) (m : Message) : Message :=
  let newData := m.data ++ raw.data.take m.bytes
  { m with
    timestamp := raw.timestamp, src := raw.src, dest := raw.dest,
    prio := raw.prio,
    data := newData,
    remainingBytes := m.bytes - newData.length }

/-- The legacy `Parser::from_raw` from parser.rs (the earlier iteration
of the engine; errors in the source are static strings, rendered here
with the same text). -/
def fromRawLegacy (raw : Raw) (m : Message) : Except String Message :=
  if m.fast then
    if m.nextPacket = 0 ∧ d0 raw &&& 0x1F = 0 then
      if m.bytes ≠ d1 raw then .error ("Unexpected length for fast packet.")
      else .ok (startResult raw m)
    else
      if m.nextPacket = m.counterMask ^^^ d0 raw then .ok (contResult raw m)
      else
        if d0 raw &&& 0x1F = 0 ∧ d1 raw = m.bytes then .ok (restartResultLegacy raw m)
        else .error ("Fast packet not in sequence.")
  else .ok (plainResultLegacy raw m)

/-- The pending table: at most one message per `(source, PGN)` key
(mod.rs `messages: HashMap<(TSrc, TPgn), Box<dyn Message>>`), modelled as
an association list. -/
abbrev Table := List ((ℕ × ℕ) × Message)

/-- Table lookup (`HashMap::get`-style view of `remove`). -/
def lookupT : Table → ℕ × ℕ → Option Message
  | [], _ => none
  | (k, m) :: t, key => if k = key then some m else lookupT t key

/-- Remove a key from the table (the removal effect of
`HashMap::remove`). -/
def removeT : Table → ℕ × ℕ → Table
  | [], _ => []
  | (k, m) :: t, key => if k = key then removeT t key else (k, m) :: removeT t key

/-- Insert a message under a key (`HashMap::insert` replaces any previous
entry). -/
def insertT (t : Table) (key : ℕ × ℕ) (m : Message) : Table :=
  (key, m) :: removeT t key

/-- The PGN catalogue as used to construct a fresh message in
`parse_from_raw` (mod.rs lines 133–145) and the legacy `parse`
(parser.rs lines 39–50): PGN, total byte length, fast flag.  The source
match in mod.rs also lists `TimeDateMessage`, whose constants are not
present under `src/`; it is omitted here (no claim concerns it, and the
spec's catalogue lists exactly these nine PGNs). -/
def catalogNew (pgn : ℕ) : Option Message :=
  if pgn = 130306 then some (mkMsg 130306 8 false)
  else if pgn = 129025 then some (mkMsg 129025 8 false)
  else if pgn = 129029 then some (mkMsg 129029 43 true)
  else if pgn = 127250 then some (mkMsg 127250 8 false)
  else if pgn = 129026 then some (mkMsg 129026 8 false)
  else if pgn = 128259 then some (mkMsg 128259 8 false)
  else if pgn = 127251 then some (mkMsg 127251 5 false)
  else if pgn = 127257 then some (mkMsg 127257 7 false)
  else if pgn = 127245 then some (mkMsg 127245 8 false)
  else none

/-- Completion test (`is_complete`): all expected bytes consumed. -/
def isComplete (m : Message) : Bool := m.remainingBytes = 0

/-- The common tail of `parse_from_raw`: run `write` on the chosen
message; on error drop the frame (no reinsertion), on success either
return the completed message or put it back into the table. -/
def stepWith (t : Table) (key : ℕ × ℕ) (raw : Raw) (m : Message) :
    Table × Option Message :=
  match write raw m with
  | .error _ => (t, none)
  | .ok m2 => if isComplete m2 then (t, some m2) else (insertT t key m2, none)

/-- `Parser::parse_from_raw` from mod.rs (lines 128–163): take the
pending entry for `(src, pgn)` out of the table, or construct a fresh one
from the catalogue (unknown PGN: the frame is ignored); then `stepWith`. -/
def parseFromRaw (t : Table) (raw : Raw) : Table × Option Message :=
  match lookupT t (raw.src, raw.pgn) with
  | some m => stepWith (removeT t (raw.src, raw.pgn)) (raw.src, raw.pgn) raw m
  | none =>
    match catalogNew raw.pgn with
    | some m => stepWith t (raw.src, raw.pgn) raw m
    | none => (t, none)

/-- The common tail of the legacy `Parser::parse` (parser.rs lines
54–64), using `fromRawLegacy`. -/
def stepWithLegacy (t : Table) (key : ℕ × ℕ) (raw : Raw) (m : Message) :
    Table × Option Message :=
  match fromRawLegacy raw m with
  | .error _ => (t, none)
  | .ok m2 => if isComplete m2 then (t, some m2) else (insertT t key m2, none)

/-- The legacy `Parser::parse` from parser.rs (lines 31–65). -/
def parseLegacy (t : Table) (raw : Raw) : Table × Option Message :=
  match lookupT t (raw.src, raw.pgn) with
  | some m => stepWithLegacy (removeT t (raw.src, raw.pgn)) (raw.src, raw.pgn) raw m
  | none =>
    match catalogNew raw.pgn with
    | some m => stepWithLegacy t (raw.src, raw.pgn) raw m
    | none => (t, none)

/-- Apply a list of frames to one message with `write`, requiring every
application to succeed (used to trace a single pending entry). -/
def applyAll : Message → List Raw → Option Message
  | m, [] => some m
  | m, raw :: rest =>
    match write raw m with
    | .ok m2 => applyAll m2 rest
    | .error _ => none

/-- Run a list of frames through `parseFromRaw`, collecting the completed
messages in order. -/
def runFrames : Table → List Raw → Table × List Message
  | t, [] => (t, [])
  | t, raw :: rest =>
    match parseFromRaw t raw with
    | (t2, some m) =>
      match runFrames t2 rest with
      | (tf, ms) => (tf, m :: ms)
    | (t2, none) => runFrames t2 rest

/-- Run a list of frames through the legacy `parseLegacy`, collecting the
completed messages in order. -/
def runFramesLegacy : Table → List Raw → Table × List Message
  | t, [] => (t, [])
  | t, raw :: rest =>
    match parseLegacy t raw with
    | (t2, some m) =>
      match runFramesLegacy t2 rest with
      | (tf, ms) => (tf, m :: ms)
    | (t2, none) => runFramesLegacy t2 rest

/-- Errors of the line parser (yd.rs `YDRawParseError` plus the boxed
`ParseIntError`/`ParseFloatError` cases, collapsed into `NumError`). -/
inductive ParseErr where
  | IteratorError
  | InvalidField
  | NumError
deriving DecidableEq

/-- Value of a decimal digit character, when it is one. -/
def digitVal (c : Char) : Option ℕ :=
  if c.isDigit then some (c.toNat - 48) else none

/-- Accumulate decimal digits left to right; fails on a non-digit. -/
def decDigitsAux : ℕ → List Char → Option ℕ
  | acc, [] => some acc
  | acc, c :: cs =>
    match digitVal c with
    | some v => decDigitsAux (10 * acc + v) cs
    | none => none

/-- Value of a non-empty all-digit character list. -/
def decDigitsVal (cs : List Char) : Option ℕ :=
  if cs.isEmpty then none else decDigitsAux 0 cs

/-- Drop one leading `+` (accepted by Rust's integer `from_str`). -/
def stripPlus (cs : List Char) : List Char :=
  match cs with
  | c :: rest => if c.toNat = 43 then rest else cs
  | [] => []

/-- Rust `u8::from_str`: optional `+`, decimal digits, value within u8. -/
def decU8 (s : String) : Option ℕ :=
  match decDigitsVal (stripPlus s.toList) with
  | some v => if v ≤ 255 then some v else none
  | none => none

/-- Value of a hexadecimal digit character (both cases), when it is one. -/
def hexDigitVal (c : Char) : Option ℕ :=
  if c.isDigit then some (c.toNat - 48)
  else if 97 ≤ c.toNat ∧ c.toNat ≤ 102 then some (c.toNat - 87)
  else if 65 ≤ c.toNat ∧ c.toNat ≤ 70 then some (c.toNat - 55)
  else none

/-- Accumulate hex digits left to right; fails on a non-hex-digit. -/
def hexDigitsAux : ℕ → List Char → Option ℕ
  | acc, [] => some acc
  | acc, c :: cs =>
    match hexDigitVal c with
    | some v => hexDigitsAux (16 * acc + v) cs
    | none => none

/-- Value of a non-empty all-hex-digit character list. -/
def hexDigitsVal (cs : List Char) : Option ℕ :=
  if cs.isEmpty then none else hexDigitsAux 0 cs

/-- Rust `u8::from_str_radix(s, 16)`: optional `+`, hex digits, value
within u8. -/
def hexU8 (s : String) : Option ℕ :=
  match hexDigitsVal (stripPlus s.toList) with
  | some v => if v ≤ 255 then some v else none
  | none => none

/-- Rust `u32::from_str_radix(s, 16)`: optional `+`, hex digits, value
within u32. -/
def hexU32 (s : String) : Option ℕ :=
  match hexDigitsVal (stripPlus s.toList) with
  | some v => if v < 2 ^ 32 then some v else none
  | none => none

/-- Rust `f32::from_str` restricted to the plain decimal forms
`[+-]digits[.digits]` / `[+-].digits` that the capture's fixed-width
seconds field `ss.ddd` uses (the exponent / infinity / NaN forms of the
full grammar are never produced by the format and are not modelled; the
result is kept as an exact rational instead of being rounded to f32). -/
def parseF32 (s : String) : Option ℚ :=
  let cs := s.toList
  let sgn : ℚ :=
    match cs with
    | c :: _ => if c.toNat = 45 then -1 else 1
    | [] => 1
  let rest : List Char :=
    match cs with
    | c :: r => if c.toNat = 45 ∨ c.toNat = 43 then r else cs
    | [] => []
  match rest.span (fun c => c.toNat != 46) with
  | (intPart, []) =>
    match decDigitsVal intPart with
    | some v => some (sgn * v)
    | none => none
  | (intPart, _ :: fracPart) =>
    if fracPart.any (fun c => c.toNat == 46) then none
    else if intPart.isEmpty ∧ fracPart.isEmpty then none
    else
      match decDigitsAux 0 intPart, decDigitsAux 0 fracPart with
      | some iv, some fv =>
        if intPart.all Char.isDigit ∧ fracPart.all Char.isDigit then
          some (sgn * ((iv : ℚ) + (fv : ℚ) / 10 ^ fracPart.length))
        else none
      | _, _ => none

/-- Rust string slice `&s[a..b]` (byte slicing; the capture format is
ASCII, where bytes and characters coincide — for an `s` shorter than `b`
Rust panics, while this model truncates; every use below stays within
bounds). -/
def strSlice (s : String) (a b : ℕ) : String :=
  String.mk ((s.toList.take b).drop a)

/-- Parse the time field `hh:mm:ss.ddd` exactly as the source does:
`u8::from_str(&t[0..2])`, `u8::from_str(&t[3..5])`,
`f32::from_str(&t[6..12])` (the separator characters are not checked). -/
def parseTimestamp (t : String) : Option Timestamp :=
  match decU8 (strSlice t 0 2), decU8 (strSlice t 3 5), parseF32 (strSlice t 6 12) with
  | some hh, some mm, some ss => some (hh, mm, ss)
  | _, _, _ => none

/-- Parse the direction field: exactly `R` or `T`. -/
def parseDirection (d : String) : Option Direction :=
  if d = "R" then some .Received
  else if d = "T" then some .Transmitted
  else none

/-- PDU-format byte `pf = (msgid >> 16) as u8`. -/
def pfOf (msgid : ℕ) : ℕ := (msgid >>> 16) % 256

/-- PDU-specific byte `ps = (msgid >> 8) as u8`. -/
def psOf (msgid : ℕ) : ℕ := (msgid >>> 8) % 256

/-- Reserved/data-page bits `rdp = ((msgid >> 24) & 3) as u8`. -/
def rdpOf (msgid : ℕ) : ℕ := (msgid >>> 24) &&& 3

/-- Source address `src = msgid as u8`. -/
def srcOf (msgid : ℕ) : ℕ := msgid % 256

/-- Priority `prio = ((msgid >> 26) & 0x7) as u8`. -/
def prioOf (msgid : ℕ) : ℕ := (msgid >>> 26) &&& 7

/-- Destination address derived from the identifier (yd.rs lines
153–160): `ps` in the PDU1 case (`pf < 240`), broadcast `0xff`
otherwise. -/
def destOf (msgid : ℕ) : ℕ :=
  if pfOf msgid < 240 then psOf msgid else 255

/-- PGN derived from the identifier (yd.rs lines 153–160; the source
combines the shifted fields with `+`). -/
def pgnOf (msgid : ℕ) : ℕ :=
  if pfOf msgid < 240 then (rdpOf msgid) <<< 16 + (pfOf msgid) <<< 8
  else (rdpOf msgid) <<< 16 + (pfOf msgid) <<< 8 + psOf msgid

/-- Assemble a `Raw` from the parsed fields, deriving the ISO11783
values from the identifier. -/
def mkRaw (ts : Timestamp) (dir : Direction) (msgid : ℕ) (data : List ℕ) : Raw :=
  { timestamp := ts, direction := dir, msgid := msgid, data := data,
    prio := prioOf msgid, pgn := pgnOf msgid,
    src := srcOf msgid, dest := destOf msgid }

/-- Parse up to eight data-byte fields (`fields.zip(0..8)`): the fields
past the eighth are never consumed; a bad field among the first eight
fails the whole line. -/
def parseDataAux : List String → Option (List ℕ)
  | [] => some []
  | f :: fs =>
    match hexU8 f with
    | some b => (parseDataAux fs).map (fun bs => b :: bs)
    | none => none

/-- The data array after the fill loop: the parsed bytes in order,
remaining positions keeping their initialisation value 0 (yd.rs lines
166–169: `let mut data = [0; 8]; for (f, i) in fields.zip(0..8)`). -/
def parseData (ds : List String) : Option (List ℕ) :=
  (parseDataAux (ds.take 8)).map (fun bs => bs ++ List.replicate (8 - bs.length) 0)

/-- The body of yd.rs `From<String>::from` after whitespace splitting:
consume the time, direction and identifier fields in order (a missing
field is `IteratorError`), then fill the data array. -/
def fromFields : List String → Except ParseErr Raw
  | [] => .error .IteratorError
  | t :: rest1 =>
    match parseTimestamp t with
    | none => .error .NumError
    | some ts =>
      match rest1 with
      | [] => .error .IteratorError
      | d :: rest2 =>
        match parseDirection d with
        | none => .error .InvalidField
        | some dir =>
          match rest2 with
          | [] => .error .IteratorError
          | mfield :: ds =>
            match hexU32 mfield with
            | none => .error .NumError
            | some msgid =>
              match parseData ds with
              | none => .error .NumError
              | some data => .ok (mkRaw ts dir msgid data)

/-- Helper for `splitWS`: walk the characters, accumulating the current
word (reversed); whitespace ends a word, empty pieces are dropped. -/
def splitWSAux : List Char → List Char → List String
  | [], acc => if acc.isEmpty then [] else [String.mk acc.reverse]
  | c :: cs, acc =>
    if c.isWhitespace then
      if acc.isEmpty then splitWSAux cs []
      else String.mk acc.reverse :: splitWSAux cs []
    else splitWSAux cs (c :: acc)

/-- Rust `split_whitespace`: split on whitespace runs, yielding the
non-empty words in order. -/
def splitWS (s : String) : List String :=
  splitWSAux s.toList []

/-- yd.rs `From<String>::from`: parse one capture line into a `Raw`. -/
def fromString (s : String) : Except ParseErr Raw :=
  fromFields (splitWS s)

/-- `Parser::parse` (mod.rs lines 123–126): parse the line, then run the
reassembly step; a line-parse failure is returned as an error. -/
def parseLine (t : Table) (s : String) : Except ParseErr (Table × Option Message) :=
  match fromString s with
  | .error e => .error e
  | .ok raw => .ok (parseFromRaw t raw)

/-- The processing loop of `read_thread` (main.rs lines 53–58) and of
the file-replay loop (main.rs lines 160–170): for each line call
`parser.parse`; the `?` operator propagates any parse error, ending the
loop.  Completed messages (which the source folds into the shared state)
are collected in order. -/
def readThread : Table → List String → Except ParseErr (Table × List Message)
  | t, [] => .ok (t, [])
  | t, l :: ls =>
    match parseLine t l with
    | .error e => .error e
    | .ok (t2, none) => readThread t2 ls
    | .ok (t2, some m) =>
      match readThread t2 ls with
      | .error e => .error e
      | .ok (tf, ms) => .ok (tf, m :: ms)

/-- The exact rational value of the f32 constant `PI as f32`
(`std::f64::consts::PI` rounded to the nearest f32, bit pattern
0x40490FDB): the threshold of the rudder plausibility check. -/
def piF32 : ℚ := 13176795 / 4194304

/-- state.rs `to_degrees`: `val * 360.0 / 2.0 / PI as f32` (the same
formula appears inline in the message.rs decoders). -/
def toDegrees (v : ℚ) : ℚ := v * 360 / 2 / piF32

/-- state.rs `to_knots`: `val * 1.943_844_6`. -/
def toKnots (v : ℚ) : ℚ := v * 1.9438446

/-- Truncation toward zero: the `as i64` cast of the f32 seconds value. -/
def ratTrunc (q : ℚ) : ℤ := if 0 ≤ q then ⌊q⌋ else -⌊-q⌋

/-- state.rs `to_date_time`, reduced to the Unix timestamp it constructs:
`days * 86_400 + seconds as i64 + localoffset * 60`. -/
def toDateTime (days : ℕ) (seconds : ℚ) (localoffset : ℤ) : ℤ :=
  (days : ℤ) * 86400 + ratTrunc seconds + localoffset * 60

/-- `u16::from_le_bytes([b0, b1])` for byte inputs `b0, b1 < 256`. -/
def u16le (b0 b1 : ℕ) : ℕ := b0 + 256 * b1

/-- `i16::from_le_bytes([b0, b1])`: for byte inputs `b0, b1 < 256` the
`% 65536` is the identity and the definition coincides with the source;
it keeps the value within the i16 range for all inputs. -/
def i16le (b0 b1 : ℕ) : ℤ :=
  if (b0 + 256 * b1) % 65536 < 32768 then ((b0 + 256 * b1) % 65536 : ℤ)
  else ((b0 + 256 * b1) % 65536 : ℤ) - 65536

/-- The `Float` wrapper of nmea/mod.rs: which float width a value
carries (all widths are modelled as exact rationals). -/
inductive FloatVal where
  | F16 (v : ℚ)
  | F32 (v : ℚ)
  | F64 (v : ℚ)
deriving DecidableEq

/-- The tagged message values of nmea/mod.rs `MessageValue`. -/
inductive MessageValue where
  | WindAngle (f : FloatVal)
  | WindSpeed (f : FloatVal)
  | Latitude (f : FloatVal)
  | Longitude (f : FloatVal)
  | Heading (f : FloatVal)
  | CourseOverGround (f : FloatVal)
  | SpeedOverGround (f : FloatVal)
  | SpeedThroughWater (f : FloatVal)
  | RateOfTurn (f : FloatVal)
  | Yaw (f : FloatVal)
  | Pitch (f : FloatVal)
  | Roll (f : FloatVal)
  | RudderAngle (f : FloatVal)
  | Timestamp (t : Timestamp)
  | Date (d : ℕ)
  | Time (t : ℚ)
  | LocalOffset (o : ℤ)
deriving DecidableEq

/-- The navigation state (state.rs `struct State`); `date_time` is kept
as the Unix timestamp that `to_date_time` constructs. -/
structure State where
  date_time : ℤ
  days : ℕ
  seconds : ℚ
  localoffset : ℤ
  timestamp : Timestamp
  awa : ℚ
  aws : ℚ
  latitude : ℚ
  longitude : ℚ
  hdg : ℚ
  cog : ℚ
  sog : ℚ
  stw : ℚ
  rot : ℚ
  pitch : ℚ
  yaw : ℚ
  roll : ℚ
  rudder_angle : ℚ
  nmea_date : Bool
  got_nmea_date : Bool
deriving DecidableEq

/-- `State::new`: all-zero/default fields. -/
def State.new (nmeaDate : Bool) : State :=
  { date_time := 0, days := 0, seconds := 0, localoffset := 0,
    timestamp := (0, 0, 0), awa := 0, aws := 0, latitude := 0,
    longitude := 0, hdg := 0, cog := 0, sog := 0, stw := 0, rot := 0,
    pitch := 0, yaw := 0, roll := 0, rudder_angle := 0,
    nmea_date := nmeaDate, got_nmea_date := false }

/-- One arm of the `match` in `State::update` (state.rs lines 115–146):
the effect of a single tagged value on the state.  The wildcard arm of
the source is `unimplemented!()` (a panic), modelled as `none`. -/
def update1 (s : State) : MessageValue → Option State
  | .Timestamp t => some { s with timestamp := t }
  | .Date d =>
    some { s with days := d, date_time := toDateTime d s.seconds s.localoffset }
  | .Time t =>
    some { s with seconds := t, date_time := toDateTime s.days t s.localoffset }
  | .LocalOffset o =>
    some { s with localoffset := o, date_time := toDateTime s.days s.seconds o,
                  got_nmea_date := true }
  | .WindSpeed (.F16 aws) => some { s with aws := toKnots aws }
  | .WindAngle (.F16 awa) => some { s with awa := toDegrees awa }
  | .Latitude (.F32 lat) => some { s with latitude := lat }
  | .Longitude (.F32 long) => some { s with longitude := long }
  | .Latitude (.F64 lat) => some { s with latitude := lat }
  | .Longitude (.F64 long) => some { s with longitude := long }
  | .Heading (.F16 hdg) => some { s with hdg := toDegrees hdg }
  | .CourseOverGround (.F16 cog) => some { s with cog := toDegrees cog }
  | .SpeedOverGround (.F16 sog) => some { s with sog := toKnots sog }
  | .SpeedThroughWater (.F16 stw) => some { s with stw := toKnots stw }
  | .RateOfTurn (.F32 rot) => some { s with rot := toDegrees rot }
  | .Yaw (.F16 yaw) => some { s with yaw := toDegrees yaw }
  | .Pitch (.F16 pitch) => some { s with pitch := toDegrees pitch }
  | .Roll (.F16 roll) => some { s with roll := toDegrees roll }
  | .RudderAngle (.F16 ra) =>
    some (if ra ≤ piF32 ∧ -piF32 ≤ ra then { s with rudder_angle := toDegrees ra } else s)
  | _ => none

/-- `State::update` (state.rs lines 113–148): fold the message's tagged
values into the state in order. -/
def updateList : State → List MessageValue → Option State
  | s, [] => some s
  | s, v :: vs =>
    match update1 s v with
    | some s2 => updateList s2 vs
    | none => none

/-- Enumeration of the scalar fields of `State`, for frame conditions. -/
inductive StateField where
  | date_time
  | days
  | seconds
  | localoffset
  | timestamp
  | awa
  | aws
  | latitude
  | longitude
  | hdg
  | cog
  | sog
  | stw
  | rot
  | pitch
  | yaw
  | roll
  | rudder_angle
  | nmea_date
  | got_nmea_date
deriving DecidableEq

/-- The two states agree on the given field. -/
def eqOn (f : StateField) (s s2 : State) : Prop :=
  match f with
  | .date_time => s2.date_time = s.date_time
  | .days => s2.days = s.days
  | .seconds => s2.seconds = s.seconds
  | .localoffset => s2.localoffset = s.localoffset
  | .timestamp => s2.timestamp = s.timestamp
  | .awa => s2.awa = s.awa
  | .aws => s2.aws = s.aws
  | .latitude => s2.latitude = s.latitude
  | .longitude => s2.longitude = s.longitude
  | .hdg => s2.hdg = s.hdg
  | .cog => s2.cog = s.cog
  | .sog => s2.sog = s.sog
  | .stw => s2.stw = s.stw
  | .rot => s2.rot = s.rot
  | .pitch => s2.pitch = s.pitch
  | .yaw => s2.yaw = s.yaw
  | .roll => s2.roll = s.roll
  | .rudder_angle => s2.rudder_angle = s.rudder_angle
  | .nmea_date => s2.nmea_date = s.nmea_date
  | .got_nmea_date => s2.got_nmea_date = s.got_nmea_date

/-- The state fields a tagged value writes in `State::update` (the
date/time tags also recompute the derived `date_time`, and a local
offset marks the date as complete). -/
def touches (v : MessageValue) (f : StateField) : Bool :=
  match v, f with
  | .Timestamp _, .timestamp => true
  | .Date _, .days => true
  | .Date _, .date_time => true
  | .Time _, .seconds => true
  | .Time _, .date_time => true
  | .LocalOffset _, .localoffset => true
  | .LocalOffset _, .date_time => true
  | .LocalOffset _, .got_nmea_date => true
  | .WindSpeed _, .aws => true
  | .WindAngle _, .awa => true
  | .Latitude _, .latitude => true
  | .Longitude _, .longitude => true
  | .Heading _, .hdg => true
  | .CourseOverGround _, .cog => true
  | .SpeedOverGround _, .sog => true
  | .SpeedThroughWater _, .stw => true
  | .RateOfTurn _, .rot => true
  | .Yaw _, .yaw => true
  | .Pitch _, .pitch => true
  | .Roll _, .roll => true
  | .RudderAngle _, .rudder_angle => true
  | _, _ => false

/-- message.rs `WindMessage::update` (lines 165–169): a completed Wind
message writes the timestamp, the apparent wind speed
(`u16` at bytes 1..3, `* 0.01 * 1.943_844_6`) and the apparent wind
angle (`u16` at bytes 3..5, `* 0.0001 * 360 / 2 / PI as f32`). -/
def windUpdate (m : Message) (s : State) : State :=
  { s with
    timestamp := m.timestamp,
    aws := (u16le (m.data.getD 1 0) (m.data.getD 2 0) : ℚ) * 0.01 * 1.9438446,
    awa := (u16le (m.data.getD 3 0) (m.data.getD 4 0) : ℚ) * 0.0001 * 360 / 2 / piF32 }

/-- message.rs `RudderMessage::update` (lines 273–280): write the
timestamp; decode the rudder angle (`i16` at bytes 4..6, `* 0.0001`
radians) and write it converted to degrees only when it passes the
plausibility check `value <= PI as f32 && value >= -PI as f32`. -/
def rudderUpdate (m : Message) (s : State) : State :=
  let s1 := { s with timestamp := m.timestamp }
  let value : ℚ := (i16le (m.data.getD 4 0) (m.data.getD 5 0) : ℚ) * 0.0001
  if value ≤ piF32 ∧ -piF32 ≤ value then
    { s1 with rudder_angle := value * 360 / 2 / piF32 }
  else s1

/-- After removing a key, a lookup for it finds nothing. -/
theorem lookupT_removeT (t : Table) (k : ℕ × ℕ) : lookupT (removeT t k) k = none := by
  induction t with
  | nil => rfl
  | cons kv rest ih =>
    obtain ⟨k2, m2⟩ := kv
    by_cases h : k2 = k <;> simp [removeT, lookupT, h, ih]

/-- Length of a Rust-style slice of a full 8-byte data array. -/
theorem sliceL_length (xs : List ℕ) (a b : ℕ) :
    (sliceL xs a b).length = min b xs.length - a := by
  simp [sliceL]

/-- A GNSS Position Data (PGN 129029) frame fixture from source address 1
with the given data bytes. -/
def gnssRaw (d : List ℕ) : Raw :=
  { timestamp := (0, 0, 0), direction := .Received, msgid := 0, data := d,
    prio := 2, pgn := 129029, src := 1, dest := 255 }

/-- First sequence's valid start frame: sequence byte 0x40 (low five bits
zero), declared length 43. -/
def startA : Raw := gnssRaw [64, 43, 1, 2, 3, 4, 5, 6]

/-- Second sequence's valid start frame: sequence byte 0x60, declared
length 43. -/
def startB : Raw := gnssRaw [96, 43, 11, 12, 13, 14, 15, 16]

/-- Continuation frame `k` of the second sequence: sequence byte
`0x60 + k`. -/
def contB (k : ℕ) : Raw :=
  gnssRaw [96 + k, 20 + k, 30 + k, 40 + k, 50 + k, 60 + k, 70 + k, 80 + k]

/-- C1: after a valid start frame, a second valid start frame for the
same key is accepted as a restart (the first partial assembly is
discarded), but — contrary to the claim — the `yd.rs` engine then rejects
the second sequence's continuation frames, because the restart arm sets
`next_packet` to its previous value plus one instead of 1: with the
pending entry at `next_packet = 2`, continuation frame 0x61 fails the
check `next_packet == counter_mask ^ data[0]` (2 ≠ 1), does not qualify
as a restart, and the entry is dropped — no message ever completes.  The
legacy `parser.rs` engine (restart arm `next_packet = 0x01`) completes
the second sequence exactly as the claim describes: the same frames give
one message of 43 bytes carrying the second sequence's counter mask
0x60.  The conjuncts evaluate both engines at this failing input. -/
theorem c1_yd_restart_rejects_second_sequence :
    runFrames [] [startA, startB, contB 1] = ([], []) ∧
    (applyAll (mkMsg 129029 43 true) [startA, startB]).map
      (fun m => (m.counterMask, m.nextPacket, m.data.length, m.remainingBytes)) =
      some (96, 2, 6, 37) ∧
    applyAll (mkMsg 129029 43 true) [startA, startB, contB 1] = none ∧
    (runFramesLegacy [] ([startA, startB] ++ (List.range 6).map (fun k => contB (k + 1)))).2.map
      (fun m => (m.data.length, m.counterMask, m.remainingBytes)) = [(43, 96, 0)] := by
  refine ⟨by decide, by decide, by decide, by decide⟩

/-- A Rate of Turn (PGN 127251, catalogue length 5, non-fast) frame
fixture from source address 3. -/
def rotRaw : Raw :=
  { timestamp := (0, 0, 0), direction := .Received, msgid := 0,
    data := [1, 2, 3, 4, 5, 6, 7, 8], prio := 2, pgn := 127251, src := 3,
    dest := 255 }

/-- C2, counterexample: a single PGN 127251 frame applied to a fresh
pending entry does complete in one step, but the accumulated buffer of
the completed message has length 8, not the catalogue's declared length
5: the non-fast arm of `Raw::write` appends all eight data bytes without
truncation. -/
theorem c2_counterexample :
    catalogNew 127251 = some (mkMsg 127251 5 false) ∧
    (parseFromRaw [] rotRaw).2.map (fun m => (m.data.length, m.remainingBytes)) =
      some (8, 0) ∧
    (8 : ℕ) ≠ 5 := by
  refine ⟨by decide, by decide, by decide⟩

/-- C2, amended: a single non-fast catalogued frame applied to a fresh
entry yields exactly one complete message; under the live `yd.rs` engine
its buffer always has length 8 (the declared length only for the 8-byte
PGNs), while under the legacy `parser.rs` engine the buffer length
equals the catalogue's declared length. -/
theorem c2_amended (t : Table) (raw : Raw) (m0 : Message)
    (hlook : lookupT t (raw.src, raw.pgn) = none)
    (hcat : catalogNew raw.pgn = some m0)
    (hfast : m0.fast = false)
    (hlen : raw.data.length = 8) :
    parseFromRaw t raw = (t, some (plainResult raw m0)) ∧
    (plainResult raw m0).remainingBytes = 0 ∧
    (plainResult raw m0).data.length = 8 ∧
    fromRawLegacy raw m0 = .ok (plainResultLegacy raw m0) ∧
    (plainResultLegacy raw m0).remainingBytes = 0 ∧
    (plainResultLegacy raw m0).data.length = m0.bytes := by
  have hbytes : m0.bytes ≤ 8 ∧ m0.data = [] ∧ m0.remainingBytes = 0 := by
    unfold catalogNew at hcat
    split_ifs at hcat <;> cases hcat <;> simp_all [mkMsg]
  obtain ⟨hb8, hdata, hrem⟩ := hbytes
  have hw : write raw m0 = .ok (plainResult raw m0) := by
    unfold write
    rw [hfast]
    simp
  have hcomplete : isComplete (plainResult raw m0) = true := by
    simp [isComplete, plainResult, hrem]
  refine ⟨?_, ?_, ?_, ?_, ?_, ?_⟩
  · simp [parseFromRaw, hlook, hcat, stepWith, hw, hcomplete]
  · simp [plainResult, hrem]
  · simp [plainResult, hdata, hlen]
  · unfold fromRawLegacy
    rw [hfast]
    simp
  · simp [plainResultLegacy, hdata, hlen]
    omega
  · simp [plainResultLegacy, hdata, hlen]
    omega

/-- Witness for the amended C2 at the PGN 127251 fixture. -/
theorem c2_amended_witness :
    (lookupT [] ((3 : ℕ), (127251 : ℕ)) = none ∧
     catalogNew 127251 = some (mkMsg 127251 5 false) ∧
     (mkMsg 127251 5 false).fast = false ∧
     rotRaw.data.length = 8) ∧
    (parseFromRaw [] rotRaw = ([], some (plainResult rotRaw (mkMsg 127251 5 false))) ∧
     (plainResult rotRaw (mkMsg 127251 5 false)).remainingBytes = 0 ∧
     (plainResult rotRaw (mkMsg 127251 5 false)).data.length = 8 ∧
     fromRawLegacy rotRaw (mkMsg 127251 5 false) =
       .ok (plainResultLegacy rotRaw (mkMsg 127251 5 false)) ∧
     (plainResultLegacy rotRaw (mkMsg 127251 5 false)).remainingBytes = 0 ∧
     (plainResultLegacy rotRaw (mkMsg 127251 5 false)).data.length =
       (mkMsg 127251 5 false).bytes) :=
  ⟨⟨by decide, by decide, by decide, by decide⟩,
   c2_amended [] rotRaw (mkMsg 127251 5 false) (by decide) (by decide) (by decide) (by decide)⟩

/-- A capture line whose direction token is `X` (neither `R` nor `T`):
the parser fails with `InvalidField`. -/
def badLine : String := "17:33:21.141 X 09F80115 A0 7D E6 18 C0 05 FB D5"

/-- A well-formed capture line (identifier 0x09F80115 derives PGN 129025,
Position Rapid Update, non-fast): one line yields one completed
message. -/
def goodLine : String := "17:33:21.141 R 09F80115 A0 7D E6 18 C0 05 FB D5"

/-- C3, counterexample: the claim says a per-line parse failure is
confined to that line and the caller continues with subsequent lines.
In the source, `read_thread` (and the file-replay loop in `main`) applies
the `?` operator to `parser.parse(...)`, so the first malformed line
terminates the whole loop with an error: processing `[badLine, goodLine]`
returns the error and never reaches `goodLine`, although `goodLine` alone
would complete a message. -/
theorem c3_counterexample :
    readThread [] [badLine, goodLine] = .error .InvalidField ∧
    (match readThread [] [goodLine] with
     | .ok (t, ms) => (t.length, ms.map (fun m => (m.pgn, m.data.length)))
     | .error _ => (99, [])) = (0, [(129025, 8)]) := by
  refine ⟨by rfl, by decide⟩

/-- C3, amended: a line-level parse failure is fatal to the processing
loop, not per-line: the error from `Raw::from` propagates through
`Parser::parse` and the loop's `?`, so the failing line and every line
after it are dropped and the loop ends with that error.  (Reassembly
failures, by contrast, are absorbed inside `parse_from_raw`; see C6.) -/
theorem c3_amended (t : Table) (l : String) (ls : List String) (e : ParseErr)
    (h : fromString l = .error e) :
    readThread t (l :: ls) = .error e := by
  simp [readThread, parseLine, h]

/-- Witness for the amended C3 at the bad-direction line. -/
theorem c3_amended_witness :
    fromString badLine = .error .InvalidField ∧
    readThread [] [badLine, goodLine] = .error .InvalidField :=
  ⟨by rfl, c3_amended [] badLine [goodLine] .InvalidField (by rfl)⟩

set_option maxRecDepth 10000 in
/-- C4, counterexample: the invariant
`accumulated_data.len() + remaining_bytes == expected_total_bytes` can be
broken by an application that returns success.  Feeding 257 copies of a
valid start frame to one pending GNSS entry succeeds at every step (the
copies after the first are accepted as restarts); each restart increments
the u8 `next_packet`, which wraps to 0 after the 256th frame, so the
257th frame is processed by the start arm, which appends to the buffer
without clearing it: the entry ends with 12 + 37 ≠ 43 after a successful
application.  (Under the debug profile Rust would instead panic at the
overflowing `next_packet += 1`; either way the claim does not hold of
the code as written.) -/
theorem c4_counterexample :
    (applyAll (mkMsg 129029 43 true) (List.replicate 257 startA)).map
      (fun m => (m.data.length, m.remainingBytes, m.bytes)) = some (12, 37, 43) ∧
    12 + 37 ≠ 43 := by
  refine ⟨by decide, by decide⟩

/-- C4, amended: the invariant holds after every successful application
to an entry that satisfies it before the application — where a not yet
started entry (`next_packet = 0`, which outside the wrap-around above
means the freshly created entry: empty buffer, zero counter mask) counts
as satisfying it.  The byte-length hypothesis `6 ≤ bytes` reflects the
catalogue: the only fast PGN, 129029, has 43 bytes (for a fast PGN with
fewer than 6 bytes the start arm's `bytes - 6` would underflow in
Rust). -/
theorem c4_amended (m : Message) (raw : Raw) (m2 : Message)
    (hf : m.fast = true) (hb : 6 ≤ m.bytes) (hlen : raw.data.length = 8)
    (hfresh : m.nextPacket = 0 → m.data = [] ∧ m.counterMask = 0)
    (hinv : m.nextPacket ≠ 0 → m.data.length + m.remainingBytes = m.bytes)
    (hw : write raw m = .ok m2) :
    m2.data.length + m2.remainingBytes = m2.bytes := by
  unfold write at hw
  rw [hf] at hw
  simp only [if_true] at hw
  by_cases hstart : m.nextPacket = 0 ∧ d0 raw &&& 0x1F = 0
  · rw [if_pos hstart] at hw
    by_cases hne : m.bytes ≠ d1 raw
    · rw [if_pos hne] at hw
      exact absurd hw (by simp)
    · rw [if_neg hne] at hw
      have hm2 : m2 = startResult raw m := by
        injection hw with h2
        exact h2.symm
      obtain ⟨hdata, -⟩ := hfresh hstart.1
      subst hm2
      simp [startResult, sliceL_length, hlen, hdata]
      omega
  · rw [if_neg hstart] at hw
    by_cases hcont : m.nextPacket = m.counterMask ^^^ d0 raw
    · rw [if_pos hcont] at hw
      have hm2 : m2 = contResult raw m := by
        injection hw with h2
        exact h2.symm
      have hnz : m.nextPacket ≠ 0 := by
        intro h0
        rcases hfresh h0 with ⟨-, hmask⟩
        rw [h0, hmask] at hcont
        have hd0 : d0 raw = 0 := by
          have := hcont.symm
          simpa using this
        exact hstart ⟨h0, by simp [hd0]⟩
      have hinv2 := hinv hnz
      subst hm2
      simp [contResult, sliceL_length, hlen]
      omega
    · rw [if_neg hcont] at hw
      by_cases hrest : d0 raw &&& 0x1F = 0 ∧ d1 raw = m.bytes
      · rw [if_pos hrest] at hw
        have hm2 : m2 = restartResult raw m := by
          injection hw with h2
          exact h2.symm
        subst hm2
        simp [restartResult, sliceL_length, hlen]
        omega
      · rw [if_neg hrest] at hw
        exact absurd hw (by simp)

/-- Witness for the amended C4: a valid start frame applied to the
freshly created GNSS entry. -/
theorem c4_amended_witness :
    ((mkMsg 129029 43 true).fast = true ∧
     6 ≤ (mkMsg 129029 43 true).bytes ∧
     startA.data.length = 8 ∧
     write startA (mkMsg 129029 43 true) = .ok (startResult startA (mkMsg 129029 43 true))) ∧
    (startResult startA (mkMsg 129029 43 true)).data.length +
      (startResult startA (mkMsg 129029 43 true)).remainingBytes =
      (startResult startA (mkMsg 129029 43 true)).bytes :=
  ⟨⟨by decide, by decide, by decide, by decide⟩,
   c4_amended (mkMsg 129029 43 true) startA (startResult startA (mkMsg 129029 43 true))
     (by decide) (by decide) (by decide)
     (fun _ => ⟨by decide, by decide⟩)
     (fun h => absurd (by decide) h)
     (by decide)⟩

/-- C5: for a fast-packet entry that is already started
(`next_packet ≠ 0`), a continuation frame is accepted exactly when
`next_packet = counter_mask ^^^ data[0]`; on acceptance the engine
appends `data[1 .. min(remaining_bytes + 1, 8)]`, decrements
`remaining_bytes` by `min(remaining_bytes, 7)` and increments
`next_packet` by one (as u8 arithmetic, hence `% 256`; below the wrap the
plain successor).  When the check fails, the frame is handled by the
restart test and never by the continuation arm. -/
theorem c5_continuation_exactly_on_match (m : Message) (raw : Raw)
    (hf : m.fast = true) (hs : m.nextPacket ≠ 0) :
    (m.nextPacket = m.counterMask ^^^ d0 raw →
       write raw m = .ok (contResult raw m) ∧
       (contResult raw m).data =
         m.data ++ sliceL raw.data 1 (min (m.remainingBytes + 1) 8) ∧
       (contResult raw m).remainingBytes =
         m.remainingBytes - min m.remainingBytes 7 ∧
       (contResult raw m).nextPacket = (m.nextPacket + 1) % 256 ∧
       (m.nextPacket < 255 → (contResult raw m).nextPacket = m.nextPacket + 1)) ∧
    (m.nextPacket ≠ m.counterMask ^^^ d0 raw →
       write raw m =
         (if d0 raw &&& 0x1F = 0 ∧ d1 raw = m.bytes
          then .ok (restartResult raw m) else .error .OutOfSequence)) := by
  have hnostart : ¬(m.nextPacket = 0 ∧ d0 raw &&& 0x1F = 0) := by
    intro h
    exact hs h.1
  constructor
  · intro hcont
    refine ⟨?_, by simp [contResult], by simp [contResult], by simp [contResult], ?_⟩
    · unfold write
      rw [hf]
      simp only [if_true]
      rw [if_neg hnostart, if_pos hcont]
    · intro hlt
      simp [contResult, Nat.mod_eq_of_lt (by omega : m.nextPacket + 1 < 256)]
  · intro hne
    unfold write
    rw [hf]
    simp only [if_true]
    rw [if_neg hnostart, if_neg hne]

/-- Witness for C5: the started GNSS entry after `startA`, receiving the
matching continuation frame with sequence byte 0x41. -/
theorem c5_continuation_witness :
    ((startResult startA (mkMsg 129029 43 true)).fast = true ∧
     (startResult startA (mkMsg 129029 43 true)).nextPacket ≠ 0 ∧
     (startResult startA (mkMsg 129029 43 true)).nextPacket =
       (startResult startA (mkMsg 129029 43 true)).counterMask ^^^
         d0 (gnssRaw [65, 91, 92, 93, 94, 95, 96, 97])) ∧
    write (gnssRaw [65, 91, 92, 93, 94, 95, 96, 97])
        (startResult startA (mkMsg 129029 43 true)) =
      .ok (contResult (gnssRaw [65, 91, 92, 93, 94, 95, 96, 97])
        (startResult startA (mkMsg 129029 43 true))) :=
  ⟨⟨by decide, by decide, by decide⟩,
   ((c5_continuation_exactly_on_match
      (startResult startA (mkMsg 129029 43 true))
      (gnssRaw [65, 91, 92, 93, 94, 95, 96, 97])
      (by decide) (by decide)).1 (by decide)).1⟩

/-- C6: when `Raw::write` fails on the pending entry for the frame's
`(source, PGN)` key, `parse_from_raw` returns no message and the entry is
gone from the table (it was taken out by `remove` and is not reinserted);
the error does not propagate (`parse_from_raw` is total and the caller's
loop continues); and a later valid start-of-sequence frame for a key with
no pending entry begins a fresh assembly: the freshly constructed
catalogue entry is written by the start arm and reinserted (incomplete,
37 bytes still missing for PGN 129029). -/
theorem c6_write_failure_drops_entry (t : Table) (raw : Raw) (m : Message)
    (e : MessageErr)
    (hm : lookupT t (raw.src, raw.pgn) = some m)
    (he : write raw m = .error e) :
    parseFromRaw t raw = (removeT t (raw.src, raw.pgn), none) ∧
    lookupT (removeT t (raw.src, raw.pgn)) (raw.src, raw.pgn) = none ∧
    (∀ (t2 : Table) (raw2 : Raw),
       lookupT t2 (raw2.src, raw2.pgn) = none →
       raw2.pgn = 129029 →
       d0 raw2 &&& 0x1F = 0 →
       d1 raw2 = 43 →
       parseFromRaw t2 raw2 =
         (insertT t2 (raw2.src, raw2.pgn)
           (startResult raw2 (mkMsg 129029 43 true)), none)) := by
  refine ⟨?_, lookupT_removeT t (raw.src, raw.pgn), ?_⟩
  · simp [parseFromRaw, hm, stepWith, he]
  · intro t2 raw2 hlook hpgn hseq hlen
    have hw : write raw2 (mkMsg 129029 43 true) =
        .ok (startResult raw2 (mkMsg 129029 43 true)) := by
      unfold write
      simp [mkMsg, hseq, hlen]
    have hincomplete : isComplete (startResult raw2 (mkMsg 129029 43 true)) = false := by
      simp [isComplete, startResult, mkMsg]
    rw [hpgn] at hlook
    simp [parseFromRaw, hlook, hpgn, catalogNew, stepWith, hw, hincomplete]

/-- Witness for C6: a started GNSS entry receives a frame whose sequence
byte 0x45 neither continues (2 expected after a restart would be 5) nor
restarts the sequence, so `write` fails with `OutOfSequence` and the
entry is dropped. -/
theorem c6_write_failure_witness :
    (lookupT [((1, 129029), startResult startA (mkMsg 129029 43 true))]
       ((gnssRaw [69, 91, 92, 93, 94, 95, 96, 97]).src,
        (gnssRaw [69, 91, 92, 93, 94, 95, 96, 97]).pgn) =
       some (startResult startA (mkMsg 129029 43 true)) ∧
     write (gnssRaw [69, 91, 92, 93, 94, 95, 96, 97])
         (startResult startA (mkMsg 129029 43 true)) =
       .error .OutOfSequence) ∧
    parseFromRaw [((1, 129029), startResult startA (mkMsg 129029 43 true))]
        (gnssRaw [69, 91, 92, 93, 94, 95, 96, 97]) =
      (removeT [((1, 129029), startResult startA (mkMsg 129029 43 true))]
        ((gnssRaw [69, 91, 92, 93, 94, 95, 96, 97]).src,
         (gnssRaw [69, 91, 92, 93, 94, 95, 96, 97]).pgn), none) :=
  ⟨⟨by decide, by decide⟩,
   (c6_write_failure_drops_entry
      [((1, 129029), startResult startA (mkMsg 129029 43 true))]
      (gnssRaw [69, 91, 92, 93, 94, 95, 96, 97])
      (startResult startA (mkMsg 129029 43 true))
      .OutOfSequence (by decide) (by decide)).1⟩

/-- The `as u8` truncation agrees with masking by 0xFF. -/
theorem mod256_eq_and (n : ℕ) : n % 256 = n &&& 255 := by
  have h := Nat.and_pow_two_sub_one_eq_mod n 8
  norm_num at h
  omega

/-- Disjoint shifted fields: `a <<< 16 ||| b <<< 8` is their sum when
`b` fits in a byte. -/
theorem or2_shift (a b : ℕ) (hb : b < 256) :
    a <<< 16 ||| b <<< 8 = a <<< 16 + b <<< 8 := by
  rw [Nat.shiftLeft_eq, Nat.shiftLeft_eq]
  rw [Nat.mul_comm a, Nat.mul_comm b]
  rw [← Nat.mul_add_lt_is_or (by norm_num; omega : 2 ^ 8 * b < 2 ^ 16) a]

/-- Disjoint shifted fields: `a <<< 16 ||| b <<< 8 ||| c` is their sum
when `b` and `c` fit in a byte. -/
theorem or3_shift (a b c : ℕ) (hb : b < 256) (hc : c < 256) :
    a <<< 16 ||| b <<< 8 ||| c = a <<< 16 + b <<< 8 + c := by
  rw [or2_shift a b hb]
  have hrw : a <<< 16 + b <<< 8 = 2 ^ 8 * (2 ^ 8 * a + b) := by
    rw [Nat.shiftLeft_eq, Nat.shiftLeft_eq]
    ring
  rw [hrw, ← Nat.mul_add_lt_is_or (by omega : c < 2 ^ 8) (2 ^ 8 * a + b)]

/-- C7: the identifier derivation of yd.rs (lines 146–160) computes
exactly the fields the claim states: `src = msgid & 0xFF`,
`priority = (msgid >> 26) & 0b111`; with `pf = (msgid >> 16) & 0xFF`,
`ps = (msgid >> 8) & 0xFF` and `rdp = (msgid >> 24) & 3`, a PDU1 frame
(`pf < 240`) gets `dest = ps` and `pgn = (rdp << 16) | (pf << 8)`, and a
PDU2 frame gets `dest = 0xFF` and
`pgn = (rdp << 16) | (pf << 8) | ps` (the source writes the disjoint
bit-or as `+`). -/
theorem c7_identifier_derivation (msgid : ℕ) (_h : msgid < 2 ^ 32) :
    pfOf msgid = (msgid >>> 16) &&& 255 ∧
    srcOf msgid = msgid &&& 255 ∧
    prioOf msgid = (msgid >>> 26) &&& 7 ∧
    (pfOf msgid < 240 →
      destOf msgid = (msgid >>> 8) &&& 255 ∧
      pgnOf msgid = ((msgid >>> 24) &&& 3) <<< 16 ||| (((msgid >>> 16) &&& 255) <<< 8)) ∧
    (240 ≤ pfOf msgid →
      destOf msgid = 255 ∧
      pgnOf msgid =
        ((msgid >>> 24) &&& 3) <<< 16 ||| (((msgid >>> 16) &&& 255) <<< 8) |||
          ((msgid >>> 8) &&& 255)) := by
  have hpf : pfOf msgid = (msgid >>> 16) &&& 255 := mod256_eq_and _
  have hps : psOf msgid = (msgid >>> 8) &&& 255 := mod256_eq_and _
  have hpfb : pfOf msgid < 256 := Nat.mod_lt _ (by norm_num)
  have hpsb : psOf msgid < 256 := Nat.mod_lt _ (by norm_num)
  refine ⟨hpf, mod256_eq_and _, rfl, ?_, ?_⟩
  · intro hlt
    refine ⟨?_, ?_⟩
    · simp [destOf, hlt, hps]
    · have hb : (msgid >>> 16) &&& 255 < 256 := by
        have := Nat.and_le_right (n := msgid >>> 16) (m := 255)
        omega
      rw [or2_shift _ _ hb]
      simp only [pgnOf, if_pos hlt, rdpOf]
      rw [hpf]
  · intro hge
    have hnlt : ¬ pfOf msgid < 240 := by omega
    refine ⟨by simp [destOf, hnlt], ?_⟩
    have hb : (msgid >>> 16) &&& 255 < 256 := by
      have := Nat.and_le_right (n := msgid >>> 16) (m := 255)
      omega
    have hc : (msgid >>> 8) &&& 255 < 256 := by
      have := Nat.and_le_right (n := msgid >>> 8) (m := 255)
      omega
    rw [or3_shift _ _ _ hb hc]
    simp only [pgnOf, if_neg hnlt, rdpOf]
    rw [hpf, hps]

/-- Witness for C7 at the identifier of the spec's example line,
0x09F80115 (a PDU2 frame, `pf = 0xF8`). -/
theorem c7_identifier_witness :
    (167248149 : ℕ) < 2 ^ 32 ∧
    (240 ≤ pfOf 167248149 →
      destOf 167248149 = 255 ∧
      pgnOf 167248149 =
        ((167248149 >>> 24) &&& 3) <<< 16 ||| (((167248149 >>> 16) &&& 255) <<< 8) |||
          ((167248149 >>> 8) &&& 255)) :=
  ⟨by norm_num, (c7_identifier_derivation 167248149 (by norm_num)).2.2.2.2⟩

/-- `i16::from_le_bytes` stays within the i16 range. -/
theorem i16le_bounds (b0 b1 : ℕ) : -32768 ≤ i16le b0 b1 ∧ i16le b0 b1 ≤ 32767 := by
  unfold i16le
  have hlt : (b0 + 256 * b1) % 65536 < 65536 := Nat.mod_lt _ (by norm_num)
  split <;> omega

/-- The decoded rudder value `n * 0.0001` passes the source's f32
threshold check (against `piF32`, the f32 value of π) exactly when the
integer `n` lies within ±31415. -/
theorem rudder_threshold_int (n : ℤ) :
    ((n : ℚ) * 0.0001 ≤ piF32 ∧ -piF32 ≤ (n : ℚ) * 0.0001) ↔
      (n ≤ 31415 ∧ -31415 ≤ n) := by
  constructor
  · rintro ⟨ha, hb⟩
    constructor
    · by_contra hc
      push_neg at hc
      have hn : (31416 : ℚ) ≤ (n : ℚ) := by exact_mod_cast hc
      have h1 : (31416 : ℚ) * 0.0001 ≤ (n : ℚ) * 0.0001 :=
        mul_le_mul_of_nonneg_right hn (by norm_num)
      have h2 : piF32 < (31416 : ℚ) * 0.0001 := by norm_num [piF32]
      linarith
    · by_contra hc
      push_neg at hc
      have hle : n ≤ -31416 := by omega
      have hn : (n : ℚ) ≤ -31416 := by exact_mod_cast hle
      have h1 : (n : ℚ) * 0.0001 ≤ (-31416 : ℚ) * 0.0001 :=
        mul_le_mul_of_nonneg_right hn (by norm_num)
      have h2 : (-31416 : ℚ) * 0.0001 < -piF32 := by norm_num [piF32]
      linarith
  · rintro ⟨ha, hb⟩
    have hna : (n : ℚ) ≤ 31415 := by exact_mod_cast ha
    have hnb : (-31415 : ℚ) ≤ (n : ℚ) := by exact_mod_cast hb
    constructor
    · have h1 : (n : ℚ) * 0.0001 ≤ (31415 : ℚ) * 0.0001 :=
        mul_le_mul_of_nonneg_right hna (by norm_num)
      have h2 : (31415 : ℚ) * 0.0001 ≤ piF32 := by norm_num [piF32]
      linarith
    · have h1 : (-31415 : ℚ) * 0.0001 ≤ (n : ℚ) * 0.0001 :=
        mul_le_mul_of_nonneg_right hnb (by norm_num)
      have h2 : -piF32 ≤ (-31415 : ℚ) * 0.0001 := by norm_num [piF32]
      linarith

/-- The decoded rudder value `n / 10000` lies in the real interval
`[-π, π]` exactly when the integer `n` lies within ±31415 (no integer
multiple of 0.0001 falls between the f32 value of π and π itself). -/
theorem rudder_threshold_real (n : ℤ) :
    ((n : ℝ) / 10000 ∈ Set.Icc (-Real.pi) Real.pi) ↔
      (n ≤ 31415 ∧ -31415 ≤ n) := by
  rw [Set.mem_Icc]
  constructor
  · rintro ⟨hb, ha⟩
    constructor
    · by_contra hc
      push_neg at hc
      have hn : (31416 : ℝ) ≤ (n : ℝ) := by exact_mod_cast hc
      have hpi := Real.pi_lt_d6
      linarith
    · by_contra hc
      push_neg at hc
      have hle : n ≤ -31416 := by omega
      have hn : (n : ℝ) ≤ -31416 := by exact_mod_cast hle
      have hpi := Real.pi_lt_d6
      linarith
  · rintro ⟨ha, hb⟩
    have hna : (n : ℝ) ≤ 31415 := by exact_mod_cast ha
    have hnb : (-31415 : ℝ) ≤ (n : ℝ) := by exact_mod_cast hb
    have hpi := Real.pi_gt_d6
    constructor <;> linarith

/-- Unfolding of `rudderUpdate` as a single conditional. -/
theorem rudderUpdate_eq (m : Message) (s : State) :
    rudderUpdate m s =
      (if ((i16le (m.data.getD 4 0) (m.data.getD 5 0) : ℚ) * 0.0001 ≤ piF32 ∧
           -piF32 ≤ (i16le (m.data.getD 4 0) (m.data.getD 5 0) : ℚ) * 0.0001) then
        { s with timestamp := m.timestamp,
                 rudder_angle :=
                   (i16le (m.data.getD 4 0) (m.data.getD 5 0) : ℚ) * 0.0001 * 360 / 2 / piF32 }
      else { s with timestamp := m.timestamp }) := rfl


/-- C8: for a completed Rudder message, with `n` the signed 16-bit
little-endian value at bytes 4..6 (so the decoded raw radian value is
`n * 0.0001 = n / 10000`): when the raw value lies outside `[-π, π]` the
update keeps the previous `rudder_angle`; when it lies inside,
`rudder_angle` is set to the value converted to degrees by the source's
formula (`* 360 / 2 / PI as f32`); a raw value of exactly 0 yields
exactly 0 degrees.  The source compares f32 values against `PI as f32`;
the fixed-point decode is modelled in exact rational arithmetic, and
`rudder_threshold_int`/`rudder_threshold_real` show the f32 threshold
and the real interval `[-π, π]` cut the decodable values identically, so
the boundary behaviour is faithful. -/
theorem c8_rudder_sanity (s : State) (m : Message) (n : ℤ)
    (hn : i16le (m.data.getD 4 0) (m.data.getD 5 0) = n) :
    (((n : ℝ) / 10000) ∉ Set.Icc (-Real.pi) Real.pi →
       (rudderUpdate m s).rudder_angle = s.rudder_angle) ∧
    (((n : ℝ) / 10000) ∈ Set.Icc (-Real.pi) Real.pi →
       (rudderUpdate m s).rudder_angle = (n : ℚ) * 0.0001 * 360 / 2 / piF32) ∧
    (n = 0 → (rudderUpdate m s).rudder_angle = 0) := by
  have hiff := (rudder_threshold_int n).trans (rudder_threshold_real n).symm
  refine ⟨?_, ?_, ?_⟩
  · intro hmem
    have hq : ¬((n : ℚ) * 0.0001 ≤ piF32 ∧ -piF32 ≤ (n : ℚ) * 0.0001) :=
      fun hq => hmem (hiff.mp hq)
    rw [rudderUpdate_eq, hn, if_neg hq]
  · intro hmem
    have hq := hiff.mpr hmem
    rw [rudderUpdate_eq, hn, if_pos hq]
  · intro h0
    rw [h0] at hn
    have hq : ((0 : ℤ) : ℚ) * 0.0001 ≤ piF32 ∧ -piF32 ≤ ((0 : ℤ) : ℚ) * 0.0001 := by
      norm_num [piF32]
    rw [rudderUpdate_eq, hn, if_pos hq]
    norm_num

/-- A completed Rudder message (PGN 127245) whose bytes 4..6 encode the
i16 value 31416, a raw radian value of 3.1416, just above π. -/
def rudderMsgHigh : Message :=
  { mkMsg 127245 8 false with data := [0, 0, 0, 0, 184, 122, 0, 0] }

/-- Witness for C8: the raw value 3.1416 is outside `[-π, π]`, so the
update keeps the previous rudder angle; and a zero raw value maps to
zero degrees. -/
theorem c8_rudder_witness :
    i16le (rudderMsgHigh.data.getD 4 0) (rudderMsgHigh.data.getD 5 0) = 31416 ∧
    (((31416 : ℤ) : ℝ) / 10000 ∉ Set.Icc (-Real.pi) Real.pi ∧
     (rudderUpdate rudderMsgHigh (State.new false)).rudder_angle =
       (State.new false).rudder_angle) := by
  have hmem : ((31416 : ℤ) : ℝ) / 10000 ∉ Set.Icc (-Real.pi) Real.pi := by
    rw [Set.mem_Icc]
    push_neg
    intro hge
    have hpi := Real.pi_lt_d6
    push_cast
    linarith
  exact ⟨by decide,
    ⟨hmem,
     (c8_rudder_sanity (State.new false) rudderMsgHigh 31416 (by decide)).1 hmem⟩⟩

/-- Agreement on a field is transitive. -/
theorem eqOn_trans (f : StateField) (a b c : State)
    (h1 : eqOn f a b) (h2 : eqOn f b c) : eqOn f a c := by
  cases f <;> simp only [eqOn] at * <;> exact h2.trans h1

/-- A single tagged value leaves every state field it does not touch
unchanged. -/
theorem update1_frame (s : State) (v : MessageValue) (s2 : State) (f : StateField)
    (h : update1 s v = some s2) (ht : touches v f = false) : eqOn f s s2 := by
  cases v with
  | WindAngle fv =>
    cases fv with
    | F16 x =>
      simp only [update1] at h
      injection h with h2
      subst h2
      cases f <;> simp_all [touches, eqOn]
    | F32 x => simp only [update1] at h; exact Option.noConfusion h
    | F64 x => simp only [update1] at h; exact Option.noConfusion h
  | WindSpeed fv =>
    cases fv with
    | F16 x =>
      simp only [update1] at h
      injection h with h2
      subst h2
      cases f <;> simp_all [touches, eqOn]
    | F32 x => simp only [update1] at h; exact Option.noConfusion h
    | F64 x => simp only [update1] at h; exact Option.noConfusion h
  | Latitude fv =>
    cases fv with
    | F16 x => simp only [update1] at h; exact Option.noConfusion h
    | F32 x =>
      simp only [update1] at h
      injection h with h2
      subst h2
      cases f <;> simp_all [touches, eqOn]
    | F64 x =>
      simp only [update1] at h
      injection h with h2
      subst h2
      cases f <;> simp_all [touches, eqOn]
  | Longitude fv =>
    cases fv with
    | F16 x => simp only [update1] at h; exact Option.noConfusion h
    | F32 x =>
      simp only [update1] at h
      injection h with h2
      subst h2
      cases f <;> simp_all [touches, eqOn]
    | F64 x =>
      simp only [update1] at h
      injection h with h2
      subst h2
      cases f <;> simp_all [touches, eqOn]
  | Heading fv =>
    cases fv with
    | F16 x =>
      simp only [update1] at h
      injection h with h2
      subst h2
      cases f <;> simp_all [touches, eqOn]
    | F32 x => simp only [update1] at h; exact Option.noConfusion h
    | F64 x => simp only [update1] at h; exact Option.noConfusion h
  | CourseOverGround fv =>
    cases fv with
    | F16 x =>
      simp only [update1] at h
      injection h with h2
      subst h2
      cases f <;> simp_all [touches, eqOn]
    | F32 x => simp only [update1] at h; exact Option.noConfusion h
    | F64 x => simp only [update1] at h; exact Option.noConfusion h
  | SpeedOverGround fv =>
    cases fv with
    | F16 x =>
      simp only [update1] at h
      injection h with h2
      subst h2
      cases f <;> simp_all [touches, eqOn]
    | F32 x => simp only [update1] at h; exact Option.noConfusion h
    | F64 x => simp only [update1] at h; exact Option.noConfusion h
  | SpeedThroughWater fv =>
    cases fv with
    | F16 x =>
      simp only [update1] at h
      injection h with h2
      subst h2
      cases f <;> simp_all [touches, eqOn]
    | F32 x => simp only [update1] at h; exact Option.noConfusion h
    | F64 x => simp only [update1] at h; exact Option.noConfusion h
  | RateOfTurn fv =>
    cases fv with
    | F16 x => simp only [update1] at h; exact Option.noConfusion h
    | F32 x =>
      simp only [update1] at h
      injection h with h2
      subst h2
      cases f <;> simp_all [touches, eqOn]
    | F64 x => simp only [update1] at h; exact Option.noConfusion h
  | Yaw fv =>
    cases fv with
    | F16 x =>
      simp only [update1] at h
      injection h with h2
      subst h2
      cases f <;> simp_all [touches, eqOn]
    | F32 x => simp only [update1] at h; exact Option.noConfusion h
    | F64 x => simp only [update1] at h; exact Option.noConfusion h
  | Pitch fv =>
    cases fv with
    | F16 x =>
      simp only [update1] at h
      injection h with h2
      subst h2
      cases f <;> simp_all [touches, eqOn]
    | F32 x => simp only [update1] at h; exact Option.noConfusion h
    | F64 x => simp only [update1] at h; exact Option.noConfusion h
  | Roll fv =>
    cases fv with
    | F16 x =>
      simp only [update1] at h
      injection h with h2
      subst h2
      cases f <;> simp_all [touches, eqOn]
    | F32 x => simp only [update1] at h; exact Option.noConfusion h
    | F64 x => simp only [update1] at h; exact Option.noConfusion h
  | RudderAngle fv =>
    cases fv with
    | F16 x =>
      simp only [update1] at h
      injection h with h2
      subst h2
      cases f <;> simp only [eqOn] <;>
        first
        | (split <;> rfl)
        | exact absurd ht (by simp [touches])
    | F32 x => simp only [update1] at h; exact Option.noConfusion h
    | F64 x => simp only [update1] at h; exact Option.noConfusion h
  | Timestamp t =>
    simp only [update1] at h
    injection h with h2
    subst h2
    cases f <;> simp_all [touches, eqOn]
  | Date d =>
    simp only [update1] at h
    injection h with h2
    subst h2
    cases f <;> simp_all [touches, eqOn]
  | Time t =>
    simp only [update1] at h
    injection h with h2
    subst h2
    cases f <;> simp_all [touches, eqOn]
  | LocalOffset o =>
    simp only [update1] at h
    injection h with h2
    subst h2
    cases f <;> simp_all [touches, eqOn]

/-- Folding a list of tagged values leaves every field none of them
touches unchanged. -/
theorem updateList_frame (vs : List MessageValue) :
    ∀ (s s2 : State) (f : StateField),
      updateList s vs = some s2 → (∀ v ∈ vs, touches v f = false) → eqOn f s s2 := by
  induction vs with
  | nil =>
    intro s s2 f h _
    simp only [updateList] at h
    injection h with h2
    subst h2
    cases f <;> simp [eqOn]
  | cons v rest ih =>
    intro s s2 f h hv
    simp only [updateList] at h
    cases hu : update1 s v with
    | none => rw [hu] at h; exact Option.noConfusion h
    | some s1 =>
      rw [hu] at h
      have h1 : eqOn f s s1 := update1_frame s v s1 f hu (hv v (by simp))
      have h2 : eqOn f s1 s2 := ih s1 s2 f h (fun w hw => hv w (by simp [hw]))
      exact eqOn_trans f s s1 s2 h1 h2

/-- C9: `State::update` overwrites exactly the fields its tagged values
target.  Conjuncts: (1) folding any value list leaves every field that
no value in the list touches unchanged; (2) the timestamp tag always
overwrites `state.timestamp`; (3) a Wind message (message.rs
`WindMessage::update`) leaves every field other than `timestamp`, `aws`
and `awa` unchanged; (4) and it does overwrite those three with the
timestamp and the decoded wind speed and angle. -/
theorem c9_update_frame :
    (∀ (s : State) (vs : List MessageValue) (s2 : State),
       updateList s vs = some s2 →
       ∀ f : StateField, (∀ v ∈ vs, touches v f = false) → eqOn f s s2) ∧
    (∀ (s : State) (t : Timestamp),
       update1 s (.Timestamp t) = some { s with timestamp := t }) ∧
    (∀ (s : State) (m : Message) (f : StateField),
       f ≠ .timestamp → f ≠ .aws → f ≠ .awa → eqOn f s (windUpdate m s)) ∧
    (∀ (s : State) (m : Message),
       (windUpdate m s).timestamp = m.timestamp ∧
       (windUpdate m s).aws =
         (u16le (m.data.getD 1 0) (m.data.getD 2 0) : ℚ) * 0.01 * 1.9438446 ∧
       (windUpdate m s).awa =
         (u16le (m.data.getD 3 0) (m.data.getD 4 0) : ℚ) * 0.0001 * 360 / 2 / piF32) := by
  refine ⟨?_, ?_, ?_, ?_⟩
  · intro s vs s2 h f hv
    exact updateList_frame vs s s2 f h hv
  · intro s t
    rfl
  · intro s m f h1 h2 h3
    cases f <;> simp_all [eqOn, windUpdate]
  · intro s m
    exact ⟨rfl, rfl, rfl⟩

/-- Witness for C9: a two-value list (timestamp and a wind speed)
applied to the fresh state changes neither `hdg` nor `latitude`, and the
timestamp tag and `windUpdate` behave as stated on concrete input. -/
theorem c9_update_frame_witness :
    (updateList (State.new false)
       [.Timestamp (1, 2, 3), .WindSpeed (.F16 2)] =
       some { State.new false with timestamp := (1, 2, 3), aws := toKnots 2 } ∧
     (∀ v ∈ ([.Timestamp (1, 2, 3), .WindSpeed (.F16 2)] : List MessageValue),
        touches v .hdg = false)) ∧
    eqOn .hdg (State.new false)
      { State.new false with timestamp := (1, 2, 3), aws := toKnots 2 } :=
  ⟨⟨by rfl, by decide⟩,
   c9_update_frame.1 (State.new false)
     [.Timestamp (1, 2, 3), .WindSpeed (.F16 2)]
     { State.new false with timestamp := (1, 2, 3), aws := toKnots 2 }
     (by rfl) .hdg (by decide)⟩

/-- Any position of a zero-filled replicate reads zero (also out of
bounds, where `getD` yields the default). -/
theorem replicate_getD (k j : ℕ) : (List.replicate k (0 : ℕ)).getD j 0 = 0 := by
  induction k generalizing j with
  | zero => simp
  | succ n ih =>
    cases j with
    | zero => simp [List.replicate]
    | succ j2 => simp [List.replicate, ih j2]

/-- `parseDataAux` yields one byte per consumed field. -/
theorem parseDataAux_length :
    ∀ (l : List String) (bs : List ℕ), parseDataAux l = some bs → bs.length = l.length := by
  intro l
  induction l with
  | nil =>
    intro bs h
    simp only [parseDataAux] at h
    injection h with h2
    subst h2
    rfl
  | cons f fs ih =>
    intro bs h
    simp only [parseDataAux] at h
    cases hf : hexU8 f with
    | none => rw [hf] at h; exact Option.noConfusion h
    | some b =>
      rw [hf] at h
      cases hrec : parseDataAux fs with
      | none => rw [hrec] at h; simp at h
      | some bs2 =>
        rw [hrec] at h
        simp only [Option.map_some] at h
        injection h with h2
        subst h2
        simp [ih bs2 hrec]

/-- C10: a line whose time, direction and identifier fields parse but
which carries fewer than 8 trailing data-byte fields still parses
successfully (the fill loop `fields.zip(0..8)` touches only the indices
that have a field, so there is no out-of-bounds store): the positions
with no corresponding field keep their initialisation value 0, the data
array always has exactly 8 entries, and fields beyond the eighth are
never consumed (appending anything after eight data fields leaves the
parse unchanged). -/
theorem c10_short_data_lines (t d i : String) (ds : List String)
    (ts : Timestamp) (dir : Direction) (msgid : ℕ) (bs : List ℕ)
    (ht : parseTimestamp t = some ts)
    (hd : parseDirection d = some dir)
    (hi : hexU32 i = some msgid)
    (hds : parseDataAux (ds.take 8) = some bs) :
    fromFields (t :: d :: i :: ds) =
      .ok (mkRaw ts dir msgid (bs ++ List.replicate (8 - bs.length) 0)) ∧
    (bs ++ List.replicate (8 - bs.length) 0).length = 8 ∧
    (∀ j, ds.length ≤ j → j < 8 →
       (bs ++ List.replicate (8 - bs.length) 0).getD j 0 = 0) ∧
    (∀ extra : List String, 8 ≤ ds.length →
       fromFields (t :: d :: i :: (ds.take 8 ++ extra)) =
         fromFields (t :: d :: i :: ds)) := by
  have hblen : bs.length = min 8 ds.length := by
    have h := parseDataAux_length (ds.take 8) bs hds
    simp at h
    exact h
  have hble : bs.length ≤ 8 := by omega
  refine ⟨?_, ?_, ?_, ?_⟩
  · simp [fromFields, ht, hd, hi, parseData, hds]
  · simp
    omega
  · intro j h1 h2
    have hbj : bs.length ≤ j := by omega
    rw [List.getD_append_right _ _ _ _ hbj]
    exact replicate_getD _ _
  · intro extra h8
    have htake : (ds.take 8 ++ extra).take 8 = ds.take 8 := by
      rw [List.take_append_eq_append_take]
      have hlen : (ds.take 8).length = 8 := by simp; omega
      rw [hlen]
      simp [List.take_of_length_le (le_of_eq hlen)]
    simp [fromFields, ht, hd, hi, parseData, htake]

/-- The timestamp of the C10 witness line, as computed by the parser. -/
def tsW : Timestamp := (parseTimestamp "17:33:21.141").getD (0, 0, 0)

/-- Witness for C10: the line fields `17:33:21.141 R 09F80115 A0 7D`
carry only two data-byte fields; the parse succeeds with
`data = [0xA0, 0x7D, 0, 0, 0, 0, 0, 0]`. -/
theorem c10_short_data_witness :
    (parseTimestamp "17:33:21.141" = some tsW ∧
     parseDirection "R" = some Direction.Received ∧
     hexU32 "09F80115" = some 167248149 ∧
     parseDataAux ((["A0", "7D"] : List String).take 8) = some [160, 125]) ∧
    (fromFields ("17:33:21.141" :: "R" :: "09F80115" :: ["A0", "7D"]) =
       .ok (mkRaw tsW Direction.Received 167248149
         ([160, 125] ++ List.replicate (8 - ([160, 125] : List ℕ).length) 0)) ∧
     (([160, 125] : List ℕ) ++ List.replicate (8 - ([160, 125] : List ℕ).length) 0).length = 8 ∧
     (∀ j, (["A0", "7D"] : List String).length ≤ j → j < 8 →
        (([160, 125] : List ℕ) ++
          List.replicate (8 - ([160, 125] : List ℕ).length) 0).getD j 0 = 0) ∧
     (∀ extra : List String, 8 ≤ (["A0", "7D"] : List String).length →
        fromFields ("17:33:21.141" :: "R" :: "09F80115" ::
            ((["A0", "7D"] : List String).take 8 ++ extra)) =
          fromFields ("17:33:21.141" :: "R" :: "09F80115" :: ["A0", "7D"]))) :=
  ⟨⟨by rfl, by rfl, by decide, by decide⟩,
   c10_short_data_lines "17:33:21.141" "R" "09F80115" ["A0", "7D"]
     tsW Direction.Received 167248149 [160, 125]
     (by rfl) (by rfl) (by decide) (by decide)⟩
